import Mathlib

set_option autoImplicit false

namespace MovieProject

/-!
Shallow embedding of the movie-project catalog and its storage variants.

Data model (spec section 3; src/storage_json.py, src/storage_csv.py,
src/movie_storage.py): a movie record handled by the IStorage
implementations has a rating, a year and a poster URL.  Ratings are
modelled as rationals (Python floats in the source), years as integers.
The movie_storage.py variant stores records holding only a year and a
rating.  A Python dict is modelled as an association list in insertion
order; dicts produced by Python always have pairwise distinct keys.
-/

structure Movie where
  rating : ℚ
  year : ℤ
  poster : String
deriving DecidableEq, Repr, Inhabited

structure MsMovie where
  year : ℤ
  rating : ℚ
deriving DecidableEq, Repr, Inhabited

abbrev Collection := List (String × Movie)

abbrev MsCollection := List (String × MsMovie)

section Dict

variable {β : Type}

/-- Python dict lookup movies[title]: the value stored at the given key. -/
def dictGet? : List (String × β) → String → Option β
  | [], _ => none
  | e :: es, t => if e.1 = t then some e.2 else dictGet? es t

/-- Python membership test of the form: title in movies. -/
def dictContains (c : List (String × β)) (t : String) : Bool :=
  (dictGet? c t).isSome

/-- Python dict assignment movies[title] = value: replaces the value in
place when the key is present, otherwise appends a new entry. -/
def dictInsert : List (String × β) → String → β → List (String × β)
  | [], t, v => [(t, v)]
  | e :: es, t, v => if e.1 = t then (t, v) :: es else e :: dictInsert es t v

/-- Python del movies[title]: removes the entry with the given key. -/
def dictErase : List (String × β) → String → List (String × β)
  | [], _ => []
  | e :: es, t => if e.1 = t then es else e :: dictErase es t

/-- Python in-place mutation movies[title][field] = value: applies the
update function to the value stored at the given key. -/
def dictModify : List (String × β) → String → (β → β) → List (String × β)
  | [], _, _ => []
  | e :: es, t, f => if e.1 = t then (e.1, f e.2) :: es else e :: dictModify es t f

/-- The keys of the dict, in insertion order. -/
def dictKeys (c : List (String × β)) : List String :=
  c.map Prod.fst

end Dict


/-!
JSON values, as produced by the Python json module for the data this
program writes: integers, floats (modelled as rationals), strings and
objects.  The json round trip between dump and load is faithful on these
shapes, so serialization of a record is modelled field by field exactly as
the source builds the dict that is dumped.
-/

inductive JVal where
  | jint : ℤ → JVal
  | jnum : ℚ → JVal
  | jstr : String → JVal
  | jobj : List (String × JVal) → JVal

/-- The keys of a JSON object, in write order; other shapes have none. -/
def jobjKeys : JVal → List String
  | .jobj fields => fields.map Prod.fst
  | _ => []

/-- Error raised by the Python layer of src/movie_storage.py: a missing
backing file surfaces as FileNotFoundError from open, a missing dict key
as KeyError. -/
inductive PyErr where
  | fileNotFound
  | keyError (title : String)
deriving DecidableEq, Repr

namespace StorageJson

/-- StorageJson.list_movies (src/storage_json.py lines 16-25): loads the
JSON file and returns the movie dict; a missing file (the none state) is
caught and yields the empty dict. -/
def list_movies (file : Option Collection) : Collection :=
  match file with
  | none => []
  | some movies => movies

/-- StorageJson.add_movie (src/storage_json.py lines 27-42): loads the
dict, assigns movies[title] unconditionally, and writes the dict back.
There is no duplicate check, so an existing record is overwritten. -/
def add_movie (file : Option Collection) (title : String) (year : ℤ)
    (rating : ℚ) (poster : String) : Option Collection :=
  some (dictInsert (list_movies file) title ⟨rating, year, poster⟩)

/-- StorageJson.delete_movie (src/storage_json.py lines 44-53): deletes
and rewrites only when the title is present, otherwise returns without
touching the file and without raising.  The result is the new file state;
the Except layer records that no exception path exists in this body. -/
def delete_movie (file : Option Collection) (title : String) :
    Except PyErr (Option Collection) :=
  let movies := list_movies file
  if dictContains movies title then .ok (some (dictErase movies title))
  else .ok file

/-- StorageJson.update_movie (src/storage_json.py lines 55-65): when the
title is present, mutates only the rating field of its record and rewrites
the file; otherwise returns with the file untouched. -/
def update_movie (file : Option Collection) (title : String) (rating : ℚ) :
    Option Collection :=
  let movies := list_movies file
  if dictContains movies title then
    some (dictModify movies title fun m => { m with rating := rating })
  else file

/-- The JSON object written for one movie record, with the field order of
the dict literal in StorageJson.add_movie. -/
def serializeMovie (m : Movie) : JVal :=
  .jobj [("rating", .jnum m.rating), ("year", .jint m.year), ("poster", .jstr m.poster)]

/-- The JSON object json.dump writes for the whole collection: one key per
title, each value the serialized record. -/
def serializeColl (c : Collection) : JVal :=
  .jobj (c.map fun e => (e.1, serializeMovie e.2))

/-- Reading the three record fields back out of a loaded JSON object, as
the rest of the program does with the dict json.load returns. -/
def decodeMovie : JVal → Option Movie
  | .jobj fields =>
    match dictGet? fields "rating", dictGet? fields "year", dictGet? fields "poster" with
    | some (.jnum r), some (.jint y), some (.jstr p) => some ⟨r, y, p⟩
    | _, _, _ => none
  | _ => none

/-- Reading the entries of the collection object one by one, failing as a
whole when one record does not have the expected shape. -/
def decodeEntries : List (String × JVal) → Option Collection
  | [] => some []
  | e :: es =>
    match decodeMovie e.2, decodeEntries es with
    | some m, some rest => some ((e.1, m) :: rest)
    | _, _ => none

/-- Reading a whole collection back out of a loaded JSON object. -/
def decodeColl : JVal → Option Collection
  | .jobj entries => decodeEntries entries
  | _ => none

end StorageJson

namespace StorageCsv

/-- StorageCsv.list_movies (src/storage_csv.py lines 16-39): parses the
CSV rows into the movie dict; a missing file is caught and yields the
empty dict. -/
def list_movies (file : Option Collection) : Collection :=
  match file with
  | none => []
  | some movies => movies

/-- StorageCsv.add_movie (src/storage_csv.py lines 41-68): only when the
title is absent, inserts the record and rewrites the file; a duplicate
title is ignored without an error and without a write. -/
def add_movie (file : Option Collection) (title : String) (year : ℤ)
    (rating : ℚ) (poster : String) : Option Collection :=
  let movies := list_movies file
  if dictContains movies title then file
  else some (dictInsert movies title ⟨rating, year, poster⟩)

/-- The CSV header written by the DictWriter in every rewrite. -/
def csvFieldnames : List String :=
  ["title", "year", "rating", "poster"]

/-- The row dict writerow receives for one record in the rewrite loops of
StorageCsv: all four fields are always present, poster possibly empty. -/
def rowOf (title : String) (m : Movie) : List (String × String) :=
  [("title", title), ("year", toString m.year),
   ("rating", toString m.rating), ("poster", m.poster)]

/-- The full sequence of data rows a rewrite of the CSV file produces. -/
def writeRows (movies : Collection) : List (List (String × String)) :=
  movies.map fun e => rowOf e.1 e.2

end StorageCsv

namespace movie_storage

/-- get_movies (src/movie_storage.py lines 4-25): opens the JSON file and
returns the loaded dict.  There is no FileNotFoundError handler, so a
missing backing file raises instead of returning an empty dict. -/
def get_movies (file : Option MsCollection) : Except PyErr MsCollection :=
  match file with
  | none => .error .fileNotFound
  | some movies => .ok movies

/-- save_movies (src/movie_storage.py lines 28-33): dumps the whole dict,
overwriting the backing file; the new file state holds exactly the dict. -/
def save_movies (movies : MsCollection) : Option MsCollection :=
  some movies

/-- add_movie (src/movie_storage.py lines 36-47): loads, assigns
movies[title] with a dict holding only year and rating, and saves. -/
def add_movie (file : Option MsCollection) (title : String) (year : ℤ)
    (rating : ℚ) : Except PyErr (Option MsCollection) := do
  let movies ← get_movies file
  .ok (save_movies (dictInsert movies title ⟨year, rating⟩))

/-- delete_movie (src/movie_storage.py lines 50-61): loads, performs del
movies[title] which raises KeyError when absent (before any save, so the
file is unchanged on that path), then saves. -/
def delete_movie (file : Option MsCollection) (title : String) :
    Except PyErr (Option MsCollection) := do
  let movies ← get_movies file
  if dictContains movies title then .ok (save_movies (dictErase movies title))
  else .error (.keyError title)

/-- update_movie (src/movie_storage.py lines 64-74): loads, performs
movies[title][rating-field] = rating which raises KeyError when the title
is absent, then saves. -/
def update_movie (file : Option MsCollection) (title : String) (rating : ℚ) :
    Except PyErr (Option MsCollection) := do
  let movies ← get_movies file
  if dictContains movies title then
    .ok (save_movies (dictModify movies title fun m => { m with rating := rating }))
  else .error (.keyError title)

/-- The JSON object written for one record by add_movie: the dict literal
holds only the year and rating fields, there is no poster key. -/
def serializeMovie (m : MsMovie) : JVal :=
  .jobj [("year", .jint m.year), ("rating", .jnum m.rating)]

end movie_storage

/-!
Catalog logic.  Python sorted on a list of ratings is modelled as an
ascending insertion sort; for a list of numbers the result of any correct
ascending sort is the same list.
-/

/-- Insert one rating into an already ascending list. -/
def insertRating (r : ℚ) : List ℚ → List ℚ
  | [] => [r]
  | x :: xs => if r ≤ x then r :: x :: xs else x :: insertRating r xs

/-- Ascending sort of a list of ratings, modelling Python sorted. -/
def sortRatings : List ℚ → List ℚ
  | [] => []
  | x :: xs => insertRating x (sortRatings xs)

namespace MovieApp

/-- The output record of the stats operation. -/
structure Stats where
  average : ℚ
  median : ℚ
  best : String × Movie
  worst : String × Movie
deriving DecidableEq, Repr

/-- The rating list extracted from the collection, as the comprehension in
MovieApp does over movies.values(). -/
def ratingsOf (movies : Collection) : List ℚ :=
  movies.map fun e => e.2.rating

/-- Python max over dict items with a rating key: the fold keeps the
current element unless a strictly larger rating appears, so the first
maximal element wins. -/
def maxByRating (e : String × Movie) (es : Collection) : String × Movie :=
  es.foldl (fun b x => if b.2.rating < x.2.rating then x else b) e

/-- Python min over dict items with a rating key: first minimal wins. -/
def minByRating (e : String × Movie) (es : Collection) : String × Movie :=
  es.foldl (fun b x => if x.2.rating < b.2.rating then x else b) e

/-- MovieApp._stats_movies (src/movie_app.py lines 115-141): on an empty
collection, prints the no-movies message and returns before any
computation (the none result); otherwise the average divides by the number
of ratings and the median is the entry at index n / 2 (floor) of the
ascending-sorted rating list, with no branch on parity. -/
def _stats_movies (movies : Collection) : Option Stats :=
  match movies with
  | [] => none
  | e :: es =>
    let ratings := ratingsOf (e :: es)
    some
      { average := ratings.sum / (ratings.length : ℚ)
      , median := (sortRatings ratings).getD (ratings.length / 2) 0
      , best := maxByRating e es
      , worst := minByRating e es }

/-- MovieApp._random_movie (src/movie_app.py lines 143-155): on an empty
collection, prints the no-movies message and returns (the none result);
otherwise random.choice picks one element of the nonempty item list, here
modelled by an arbitrary index reduced modulo the length. -/
def _random_movie (movies : Collection) (k : ℕ) : Option (String × Movie) :=
  match movies with
  | [] => none
  | e :: es => some ((e :: es).getD (k % (e :: es).length) e)

/-- MovieApp._filter_movies (src/movie_app.py lines 220-257): blank
inputs default to rating 0, start year 1887 and the current calendar
year; a record is kept when its rating is at least the minimum and its
year lies inclusively between the bounds. -/
def _filter_movies (movies : Collection) (min_rating : Option ℚ)
    (start_year end_year : Option ℤ) (current_year : ℤ) : Collection :=
  let mr := min_rating.getD 0
  let sy := start_year.getD 1887
  let ey := end_year.getD current_year
  movies.filter fun e =>
    decide (mr ≤ e.2.rating) && (decide (sy ≤ e.2.year) && decide (e.2.year ≤ ey))

end MovieApp

/-- The movie_storage view of a collection: the same titles and records
minus the poster field, used to compare the two stats variants on equal
data. -/
def toMs (c : Collection) : MsCollection :=
  c.map fun e => (e.1, ⟨e.2.year, e.2.rating⟩)

/-- The output record of stats_movies in src/movies.py. -/
structure MsStats where
  average : ℚ
  median : ℚ
  best : String × MsMovie
  worst : String × MsMovie
deriving DecidableEq, Repr

/-- The rating list extracted from a movie_storage collection. -/
def msRatingsOf (movies : MsCollection) : List ℚ :=
  movies.map fun e => e.2.rating

/-- Python max over dict items for the movie_storage record shape. -/
def msMaxByRating (e : String × MsMovie) (es : MsCollection) : String × MsMovie :=
  es.foldl (fun b x => if b.2.rating < x.2.rating then x else b) e

/-- Python min over dict items for the movie_storage record shape. -/
def msMinByRating (e : String × MsMovie) (es : MsCollection) : String × MsMovie :=
  es.foldl (fun b x => if x.2.rating < b.2.rating then x else b) e

/-- stats_movies (src/movies.py lines 218-258): sorts the ratings
ascending, divides the sum by len(movies), and branches on parity for the
median: the middle entry when the count is odd, the mean of the two
central entries when it is even.  On an empty collection the division by
len(movies) raises ZeroDivisionError, modelled by the none result. -/
def stats_movies (movies : MsCollection) : Option MsStats :=
  match movies with
  | [] => none
  | e :: es =>
    let c := e :: es
    let sorted_movies_ratings := sortRatings (msRatingsOf c)
    some
      { average := sorted_movies_ratings.sum / (c.length : ℚ)
      , median :=
          if c.length % 2 ≠ 0 then sorted_movies_ratings.getD (c.length / 2) 0
          else (sorted_movies_ratings.getD (c.length / 2 - 1) 0
                + sorted_movies_ratings.getD (c.length / 2) 0) / 2
      , best := msMaxByRating e es
      , worst := msMinByRating e es }

/-- filter_movies (src/movies.py lines 406-470): blank inputs default to
rating 0, start year 1887 and the current calendar year; a record is kept
when its rating is at least the minimum and its year lies inclusively
between the bounds. -/
def filter_movies (movies : MsCollection) (filter_rating : Option ℚ)
    (start_year end_year : Option ℤ) (current_year : ℤ) : MsCollection :=
  let fr := filter_rating.getD 0
  let sy := start_year.getD 1887
  let ey := end_year.getD current_year
  movies.filter fun e =>
    decide (fr ≤ e.2.rating) && (decide (sy ≤ e.2.year) && decide (e.2.year ≤ ey))

/-!
Approximate search (src/movies.py lines 281-338).  The rapidfuzz ratio of
two strings is the normalized indel similarity scaled to 0-100, which
equals 200 times the length of a longest common subsequence divided by the
total length; two empty strings score 100.
-/

/-- One step of the longest-common-subsequence recursion: given the
solution function for the tail of the first list, extends it by one
leading character.  Structured this way the recursion is structural in
both arguments and reduces inside the kernel. -/
def lcsStep (a : Char) (f : List Char → ℕ) : List Char → ℕ
  | [] => 0
  | b :: bs => if a = b then f bs + 1 else max (lcsStep a f bs) (f (b :: bs))

/-- Length of a longest common subsequence of two character lists. -/
def lcsLen : List Char → List Char → ℕ
  | [], _ => 0
  | a :: as, bs => lcsStep a (lcsLen as) bs

/-- rapidfuzz fuzz.ratio on two strings, as an exact rational. -/
def fuzz_ratio (a b : List Char) : ℚ :=
  if a.length + b.length = 0 then 100
  else 200 * (lcsLen a b : ℚ) / ((a.length : ℚ) + (b.length : ℚ))

/-- Python str.lower() over the character list, the same character map the
core toLower performs, stated structurally so it reduces in the kernel. -/
def pyLower (s : String) : String :=
  String.mk (s.data.map Char.toLower)

/-- Splitter for Python str.split(): cuts at every whitespace character,
accumulating the current piece in reverse. -/
def splitWS : List Char → List Char → List (List Char)
  | [], cur => [cur.reverse]
  | a :: t, cur =>
    if a.isWhitespace then cur.reverse :: splitWS t [] else splitWS t (a :: cur)

/-- Python str.split() with no argument: splits on whitespace runs and
discards empty pieces. -/
def pySplit (s : String) : List String :=
  ((splitWS s.data []).filter fun l => !l.isEmpty).map fun l => String.mk l

/-- One comparison of the fuzzy loop body: the ratio of the search string
against the lowercased word, tested strictly above the limit of 70. -/
def word_qualifies (search_str : String) (word : String) : Bool :=
  decide (fuzz_ratio search_str.toList (pyLower word).toList > 70)

/-- The inner word loop of fuzzy_search: walks the words of one title and
stops at the first qualifying word, so each title is appended at most
once. -/
def first_word_match (search_str : String) : List String → Bool
  | [] => false
  | w :: ws => if word_qualifies search_str w then true else first_word_match search_str ws

/-- fuzzy_search (src/movies.py lines 309-338): appends one result line of
title and rating for every title one of whose words scores strictly above
70 against the search string, in collection order.  The header line that
decorates a nonempty result is presentation and not modelled. -/
def fuzzy_search (movies : MsCollection) (search_str : String) : List (String × ℚ) :=
  match movies with
  | [] => []
  | e :: es =>
    if first_word_match search_str (pySplit e.1)
    then (e.1, e.2.rating) :: fuzzy_search es search_str
    else fuzzy_search es search_str

/-- Python substring containment needle in hay on character lists. -/
def listStartsWith : List Char → List Char → Bool
  | [], _ => true
  | _ :: _, [] => false
  | a :: as, b :: bs => a = b && listStartsWith as bs

/-- Python membership test of one string inside another. -/
def containsSub (needle : List Char) : List Char → Bool
  | [] => listStartsWith needle []
  | c :: cs => listStartsWith needle (c :: cs) || containsSub needle cs

/-- The substring pass of search_movies: one result line per title that
contains the lowercased search string case-insensitively. -/
def direct_matches (movies : MsCollection) (search_str : String) : List (String × ℚ) :=
  movies.filterMap fun e =>
    if containsSub search_str.toList (pyLower e.1).toList then some (e.1, e.2.rating) else none

/-- search_movies (src/movies.py lines 281-307): lowercases the user
input, collects every substring match, and only when that pass produced
nothing consults fuzzy_search.  The source accumulates lines into one
string and tests it against the empty string; every appended line is
nonempty, so the test is emptiness of the line list. -/
def search_movies (movies : MsCollection) (user_input : String) : List (String × ℚ) :=
  let search_str := pyLower user_input
  let direct := direct_matches movies search_str
  if direct = [] then fuzzy_search movies search_str else direct

/-!
Validation (src/movies.py lines 44-66).  The error carries the violated
rule; the duplicate case names the offending title, as the formatted
message in the source does.
-/

inductive NameErr where
  | emptyName
  | invalidChars
  | alreadyExists (title : String)
deriving DecidableEq, Repr

/-- The character class of the title regex: ASCII letters and digits,
whitespace, hyphen, apostrophe, comma, period, exclamation and question
mark. -/
def allowedChar (ch : Char) : Bool :=
  ch.isAlphanum || ch.isWhitespace || [Char.ofNat 45, Char.ofNat 39, Char.ofNat 44, Char.ofNat 46, Char.ofNat 33, Char.ofNat 63].contains ch

/-- Whether the anchored regex of valid_movie_name accepts the name: at
least one character, all from the allowed class. -/
def regexAccepts (s : String) : Bool :=
  !s.isEmpty && s.toList.all allowedChar

/-- Python str.strip(): drops leading and trailing whitespace. -/
def pyStrip (s : String) : String :=
  String.mk (((s.data.dropWhile Char.isWhitespace).reverse.dropWhile Char.isWhitespace).reverse)

/-- valid_movie_name (src/movies.py lines 44-66): rejects a name that is
blank after stripping, then one the regex rejects, then one already
present in the stored collection, naming that title in the error. -/
def valid_movie_name (movies : MsCollection) (movie_name : String) : Except NameErr Unit :=
  if (pyStrip movie_name).isEmpty then .error .emptyName
  else if !regexAccepts movie_name then .error .invalidChars
  else if dictContains movies movie_name then .error (.alreadyExists movie_name)
  else .ok ()

/-!
Lemma section: everything below is proved about the definitions above.
-/

section DictLemmas

variable {β : Type}

theorem dictGet?_isSome_iff {c : List (String × β)} {t : String} :
    (dictGet? c t).isSome = true ↔ ∃ v, dictGet? c t = some v := by
  cases h : dictGet? c t <;> simp [h]

theorem dictContains_false_iff_get?_eq_none {c : List (String × β)} {t : String} :
    dictContains c t = false ↔ dictGet? c t = none := by
  cases h : dictGet? c t <;> simp [dictContains, h]

theorem dictGet?_modify_self (c : List (String × β)) (t : String) (f : β → β) :
    dictGet? (dictModify c t f) t = (dictGet? c t).map f := by
  induction c with
  | nil => rfl
  | cons e es ih =>
    by_cases h : e.1 = t
    · simp [dictModify, dictGet?, h]
    · simp [dictModify, dictGet?, h, ih]

theorem dictGet?_modify_ne (c : List (String × β)) (t t' : String) (f : β → β)
    (h : t' ≠ t) : dictGet? (dictModify c t f) t' = dictGet? c t' := by
  induction c with
  | nil => rfl
  | cons e es ih =>
    by_cases he : e.1 = t
    · subst he
      simp [dictModify, dictGet?, (by simpa using (Ne.symm h) : ¬ e.1 = t')]
    · by_cases he' : e.1 = t'
      · simp [dictModify, dictGet?, he, he', h]
      · simp [dictModify, dictGet?, he, he', ih]

theorem dictKeys_modify (c : List (String × β)) (t : String) (f : β → β) :
    dictKeys (dictModify c t f) = dictKeys c := by
  induction c with
  | nil => rfl
  | cons e es ih =>
    by_cases h : e.1 = t
    · simp [dictModify, dictKeys, h]
    · simp only [dictModify, if_neg h]
      simpa [dictKeys] using ih

theorem dictGet?_erase_self (c : List (String × β)) (t : String)
    (hnd : (dictKeys c).Nodup) : dictGet? (dictErase c t) t = none := by
  induction c with
  | nil => rfl
  | cons e es ih =>
    simp only [dictKeys, List.map_cons, List.nodup_cons] at hnd
    by_cases h : e.1 = t
    · subst h
      simp only [dictErase, if_pos rfl]
      rw [dictContains_false_iff_get?_eq_none.mp]
      cases hg : dictGet? es e.1 with
      | none => simp [dictContains, hg]
      | some v =>
        exfalso
        have : e.1 ∈ dictKeys es := by
          clear ih hnd
          induction es with
          | nil => simp [dictGet?] at hg
          | cons x xs ihx =>
            by_cases hx : x.1 = e.1
            · simp [dictKeys, hx]
            · simp only [dictGet?, if_neg hx] at hg
              simp [dictKeys] at ihx ⊢
              right
              simpa [dictKeys] using ihx hg
        exact hnd.1 (by simpa [dictKeys] using this)
    · simp only [dictErase, if_neg h, dictGet?, if_neg h]
      exact ih (by simpa [dictKeys] using hnd.2)

theorem dictGet?_erase_ne (c : List (String × β)) (t t' : String) (h : t' ≠ t) :
    dictGet? (dictErase c t) t' = dictGet? c t' := by
  induction c with
  | nil => rfl
  | cons e es ih =>
    by_cases he : e.1 = t
    · subst he
      simp [dictErase, dictGet?, (by simpa using (Ne.symm h) : ¬ e.1 = t')]
    · by_cases he' : e.1 = t'
      · simp [dictErase, dictGet?, he, he', h]
      · simp [dictErase, dictGet?, he, he', ih]

theorem dictGet?_insert_self (c : List (String × β)) (t : String) (v : β) :
    dictGet? (dictInsert c t v) t = some v := by
  induction c with
  | nil => simp [dictInsert, dictGet?]
  | cons e es ih =>
    by_cases h : e.1 = t
    · simp [dictInsert, dictGet?, h]
    · simp [dictInsert, dictGet?, h, ih]

theorem dictGet?_insert_ne (c : List (String × β)) (t t' : String) (v : β)
    (h : t' ≠ t) : dictGet? (dictInsert c t v) t' = dictGet? c t' := by
  induction c with
  | nil => simp [dictInsert, dictGet?, h.symm]
  | cons e es ih =>
    by_cases he : e.1 = t
    · subst he
      simp [dictInsert, dictGet?, (by simpa using (Ne.symm h) : ¬ e.1 = t')]
    · by_cases he' : e.1 = t'
      · simp [dictInsert, dictGet?, he, he', h]
      · simp [dictInsert, dictGet?, he, he', ih]

theorem dictKeys_insert_of_contains (c : List (String × β)) (t : String) (v : β)
    (h : dictContains c t = true) : dictKeys (dictInsert c t v) = dictKeys c := by
  induction c with
  | nil => simp [dictContains, dictGet?] at h
  | cons e es ih =>
    by_cases he : e.1 = t
    · simp [dictInsert, dictKeys, he]
    · simp only [dictContains, dictGet?, if_neg he] at h
      simp only [dictInsert, if_neg he]
      simpa [dictKeys] using ih h

end DictLemmas

theorem length_insertRating (r : ℚ) (l : List ℚ) :
    (insertRating r l).length = l.length + 1 := by
  induction l with
  | nil => rfl
  | cons x xs ih =>
    by_cases h : r ≤ x
    · simp [insertRating, h]
    · simp [insertRating, h, ih]

theorem length_sortRatings (l : List ℚ) :
    (sortRatings l).length = l.length := by
  induction l with
  | nil => rfl
  | cons x xs ih => simp [sortRatings, length_insertRating, ih]

theorem msRatingsOf_toMs (c : Collection) :
    msRatingsOf (toMs c) = MovieApp.ratingsOf c := by
  simp [msRatingsOf, toMs, MovieApp.ratingsOf, List.map_map]

theorem length_toMs (c : Collection) : (toMs c).length = c.length := by
  simp [toMs]

theorem decodeMovie_serializeMovie (m : Movie) :
    StorageJson.decodeMovie (StorageJson.serializeMovie m) = some m := rfl

theorem decodeColl_serializeColl (c : Collection) :
    StorageJson.decodeColl (StorageJson.serializeColl c) = some c := by
  induction c with
  | nil => rfl
  | cons e es ih =>
    simp only [StorageJson.serializeColl, List.map_cons, StorageJson.decodeColl,
      StorageJson.decodeEntries, decodeMovie_serializeMovie]
    simp only [StorageJson.serializeColl, StorageJson.decodeColl] at ih
    rw [ih]

theorem fuzz_ratio_gt_70_iff (a b : List Char) :
    fuzz_ratio a b > 70 ↔
      (a.length + b.length = 0 ∨ 70 * (a.length + b.length) < 200 * lcsLen a b) := by
  unfold fuzz_ratio
  by_cases h : a.length + b.length = 0
  · simp [h]
    norm_num
  · rw [if_neg h]
    have hpos : (0:ℚ) < (a.length : ℚ) + (b.length : ℚ) := by
      have : 0 < a.length + b.length := Nat.pos_of_ne_zero h
      exact_mod_cast this
    rw [gt_iff_lt, lt_div_iff₀ hpos]
    constructor
    · intro hlt
      right
      exact_mod_cast hlt
    · intro hor
      rcases hor with h0 | hlt
      · exact absurd h0 h
      · exact_mod_cast hlt

theorem word_qualifies_eq_decide (s w : String) :
    word_qualifies s w =
      decide (s.toList.length + (pyLower w).toList.length = 0 ∨
        70 * (s.toList.length + (pyLower w).toList.length) <
          200 * lcsLen s.toList (pyLower w).toList) := by
  unfold word_qualifies
  exact decide_eq_decide.mpr (fuzz_ratio_gt_70_iff _ _)

theorem first_word_match_eq_any (s : String) (ws : List String) :
    first_word_match s ws = ws.any (word_qualifies s) := by
  induction ws with
  | nil => rfl
  | cons w ws ih =>
    by_cases h : word_qualifies s w
    · simp [first_word_match, h]
    · simp [first_word_match, h, ih]

theorem mem_fuzzy_search (movies : MsCollection) (s t : String) (r : ℚ) :
    (t, r) ∈ fuzzy_search movies s ↔
      ∃ m, (t, m) ∈ movies ∧ m.rating = r ∧ first_word_match s (pySplit t) = true := by
  induction movies with
  | nil => simp [fuzzy_search]
  | cons e es ih =>
    obtain ⟨te, me⟩ := e
    by_cases h : first_word_match s (pySplit te)
    · simp only [fuzzy_search, if_pos h, List.mem_cons, ih]
      constructor
      · rintro (hp | ⟨m, hm, hr, hq⟩)
        · simp only [Prod.mk.injEq] at hp
          obtain ⟨ht, hr⟩ := hp
          subst ht
          exact ⟨me, Or.inl rfl, hr.symm, h⟩
        · exact ⟨m, Or.inr hm, hr, hq⟩
      · rintro ⟨m, hm | hm, hr, hq⟩
        · simp only [Prod.mk.injEq] at hm
          obtain ⟨ht, hmm⟩ := hm
          subst ht
          subst hmm
          exact Or.inl (by rw [hr])
        · exact Or.inr ⟨m, hm, hr, hq⟩
    · simp only [fuzzy_search, if_neg h, List.mem_cons, ih]
      constructor
      · rintro ⟨m, hm, hr, hq⟩
        exact ⟨m, Or.inr hm, hr, hq⟩
      · rintro ⟨m, hm | hm, hr, hq⟩
        · simp only [Prod.mk.injEq] at hm
          obtain ⟨ht, _⟩ := hm
          subst ht
          exact absurd hq h
        · exact ⟨m, hm, hr, hq⟩

theorem countP_fuzzy_search_of_not_mem (movies : MsCollection) (s t : String)
    (h : t ∉ dictKeys movies) :
    ((fuzzy_search movies s).countP fun e => e.1 == t) = 0 := by
  induction movies with
  | nil => rfl
  | cons e es ih =>
    simp only [dictKeys, List.map_cons, List.mem_cons, not_or] at h
    by_cases hq : first_word_match s (pySplit e.1)
    · simp only [fuzzy_search, if_pos hq, List.countP_cons]
      have hne : (e.1 == t) = false := by
        simpa using fun hh => h.1 hh.symm
      simp [hne, ih (by simpa [dictKeys] using h.2)]
    · simp only [fuzzy_search, if_neg hq]
      exact ih (by simpa [dictKeys] using h.2)

theorem countP_fuzzy_search_of_match (movies : MsCollection) (s t : String)
    (hnd : (dictKeys movies).Nodup) (hmem : t ∈ dictKeys movies)
    (hq : first_word_match s (pySplit t) = true) :
    ((fuzzy_search movies s).countP fun e => e.1 == t) = 1 := by
  induction movies with
  | nil => simp [dictKeys] at hmem
  | cons e es ih =>
    simp only [dictKeys, List.map_cons, List.nodup_cons] at hnd
    by_cases he : e.1 = t
    · subst he
      simp only [fuzzy_search, if_pos hq, List.countP_cons]
      rw [countP_fuzzy_search_of_not_mem es s e.1 (by simpa [dictKeys] using hnd.1)]
      simp
    · have hmem' : t ∈ dictKeys es := by
        simp only [dictKeys, List.map_cons, List.mem_cons] at hmem
        rcases hmem with hh | hh
        · exact absurd hh.symm he
        · simpa [dictKeys] using hh
      have hrec := ih (by simpa [dictKeys] using hnd.2) hmem'
      by_cases hqe : first_word_match s (pySplit e.1)
      · simp only [fuzzy_search, if_pos hqe, List.countP_cons]
        have : (e.1 == t) = false := by simpa using he
        simp [this, hrec]
      · simpa [fuzzy_search, if_neg hqe] using hrec

theorem direct_matches_eq_nil_iff (movies : MsCollection) (s : String) :
    direct_matches movies s = [] ↔
      ∀ e ∈ movies, containsSub s.toList (pyLower e.1).toList = false := by
  rw [direct_matches, List.filterMap_eq_nil_iff]
  constructor
  · intro h e he
    have h2 := h e he
    by_cases hc : containsSub s.toList (pyLower e.1).toList
    · rw [if_pos hc] at h2
      cases h2
    · cases hcc : containsSub s.toList (pyLower e.1).toList
      · rfl
      · exact absurd hcc hc
  · intro h e he
    have hh : containsSub s.toList (pyLower e.1).toList = false := h e he
    rw [hh]
    rfl

/-!
Claim theorems.
-/

/-- C1: Round-trip fidelity of the Record Store: for every valid collection
(distinct titles), writing the JSON object the way the storage serializes
records and reading the fields back yields the same records, title by
title, with year, rating and poster equal; and at the movie_storage state
level a load directly after a save returns exactly the saved collection. -/
theorem C1_roundtrip :
    (∀ c : Collection, (dictKeys c).Nodup →
      StorageJson.decodeColl (StorageJson.serializeColl c) = some c)
    ∧ ∀ d : MsCollection,
      movie_storage.get_movies (movie_storage.save_movies d) = .ok d := by
  constructor
  · intro c _
    exact decodeColl_serializeColl c
  · intro d
    rfl

/-- C1 witness: the round trip evaluated on a concrete two-record
collection with distinct titles. -/
theorem C1_roundtrip_witness :
    (dictKeys [("Titanic", (⟨9, 1997, "u"⟩ : Movie)), ("Up", ⟨8, 2009, ""⟩)]).Nodup
    ∧ StorageJson.decodeColl (StorageJson.serializeColl
        [("Titanic", ⟨9, 1997, "u"⟩), ("Up", ⟨8, 2009, ""⟩)])
      = some [("Titanic", ⟨9, 1997, "u"⟩), ("Up", ⟨8, 2009, ""⟩)] :=
  ⟨by decide, C1_roundtrip.1 _ (by decide)⟩

/-- C3 counterexample: deleting a title that is not in the collection
through StorageJson.delete_movie completes normally with the file
unchanged; no not-found error of any kind is raised, refuting the claim
that every delete of an absent title fails with a not-found error. -/
theorem C3_counterexample :
    StorageJson.delete_movie (some [("A", ⟨5, 2000, "p"⟩)]) "Ghost"
      = .ok (some [("A", ⟨5, 2000, "p"⟩)]) := rfl

/-- C3 (amended): movie_storage.delete_movie raises KeyError on an absent
title with the file unchanged, while StorageJson.delete_movie returns
silently with the file unchanged and no error; when the title is present
both variants remove exactly that record and persist the result, leaving
every other record intact. -/
theorem C3_amended :
    (∀ (d : MsCollection) (t : String), dictContains d t = false →
      movie_storage.delete_movie (some d) t = .error (.keyError t))
    ∧ (∀ (file : Option Collection) (t : String),
      dictContains (StorageJson.list_movies file) t = false →
      StorageJson.delete_movie file t = .ok file)
    ∧ (∀ (file : Option Collection) (t : String),
      dictContains (StorageJson.list_movies file) t = true →
      (dictKeys (StorageJson.list_movies file)).Nodup →
      StorageJson.delete_movie file t
        = .ok (some (dictErase (StorageJson.list_movies file) t))
      ∧ dictGet? (dictErase (StorageJson.list_movies file) t) t = none
      ∧ ∀ t', t' ≠ t → dictGet? (dictErase (StorageJson.list_movies file) t) t'
          = dictGet? (StorageJson.list_movies file) t')
    ∧ ∀ (d : MsCollection) (t : String), dictContains d t = true →
      (dictKeys d).Nodup →
      movie_storage.delete_movie (some d) t = .ok (some (dictErase d t))
      ∧ dictGet? (dictErase d t) t = none
      ∧ ∀ t', t' ≠ t → dictGet? (dictErase d t) t' = dictGet? d t' := by
  refine ⟨?_, ?_, ?_, ?_⟩
  · intro d t h
    simp [movie_storage.delete_movie, movie_storage.get_movies, h,
      Bind.bind, Except.bind]
  · intro file t h
    simp [StorageJson.delete_movie, h]
  · intro file t h hnd
    refine ⟨by simp [StorageJson.delete_movie, h], dictGet?_erase_self _ _ hnd, ?_⟩
    intro t' ht'
    exact dictGet?_erase_ne _ _ _ ht'
  · intro d t h hnd
    refine ⟨?_, dictGet?_erase_self _ _ hnd, ?_⟩
    · simp [movie_storage.delete_movie, movie_storage.get_movies,
        movie_storage.save_movies, h, Bind.bind, Except.bind]
    · intro t' ht'
      exact dictGet?_erase_ne _ _ _ ht'

/-- C3 witness: the amended behaviour evaluated concretely: a missing
title raises KeyError in the movie_storage variant, and a present title is
removed exactly. -/
theorem C3_amended_witness :
    (dictContains [("A", (⟨2000, 5⟩ : MsMovie))] "Ghost" = false)
    ∧ movie_storage.delete_movie (some [("A", (⟨2000, 5⟩ : MsMovie))]) "Ghost"
        = .error (.keyError "Ghost")
    ∧ (dictContains [("A", (⟨2000, 5⟩ : MsMovie)), ("B", ⟨2001, 7⟩)] "A" = true)
    ∧ (dictKeys [("A", (⟨2000, 5⟩ : MsMovie)), ("B", ⟨2001, 7⟩)]).Nodup
    ∧ movie_storage.delete_movie (some [("A", (⟨2000, 5⟩ : MsMovie)), ("B", ⟨2001, 7⟩)]) "A"
        = .ok (some (dictErase [("A", (⟨2000, 5⟩ : MsMovie)), ("B", ⟨2001, 7⟩)] "A")) :=
  ⟨by decide, C3_amended.1 _ _ (by decide), by decide, by decide,
    (C3_amended.2.2.2 _ _ (by decide) (by decide)).1⟩

/-- C5 counterexample: the movie_storage variant raises FileNotFoundError
when the backing file does not exist instead of returning the empty
collection. -/
theorem C5_counterexample :
    movie_storage.get_movies none = .error .fileNotFound := rfl

/-- C5 (amended): StorageJson.list_movies and StorageCsv.list_movies
return the empty collection on a missing backing file, but the
movie_storage variant raises FileNotFoundError there. -/
theorem C5_amended :
    StorageJson.list_movies none = []
    ∧ StorageCsv.list_movies none = []
    ∧ movie_storage.get_movies none = .error .fileNotFound :=
  ⟨rfl, rfl, rfl⟩

/-- C8 counterexample: the record object persisted by
movie_storage.add_movie holds only the year and rating keys; the poster
field is not materialized. -/
theorem C8_counterexample :
    jobjKeys (movie_storage.serializeMovie ⟨2000, 5⟩) = ["year", "rating"]
    ∧ "poster" ∉ jobjKeys (movie_storage.serializeMovie ⟨2000, 5⟩) :=
  ⟨rfl, by decide⟩

/-- C8 (amended): every record persisted by the StorageJson and StorageCsv
writers materializes all four fields, poster possibly empty, while the
movie_storage writer persists only title, year and rating with no poster
key. -/
theorem C8_amended :
    (∀ m : Movie, jobjKeys (StorageJson.serializeMovie m)
      = ["rating", "year", "poster"])
    ∧ (∀ (t : String) (m : Movie),
        (StorageCsv.rowOf t m).map Prod.fst = StorageCsv.csvFieldnames)
    ∧ (∀ movies : Collection, ∀ row ∈ StorageCsv.writeRows movies,
        row.map Prod.fst = StorageCsv.csvFieldnames)
    ∧ ∀ m : MsMovie, jobjKeys (movie_storage.serializeMovie m)
      = ["year", "rating"] := by
  refine ⟨fun m => rfl, fun t m => rfl, ?_, fun m => rfl⟩
  intro movies row hrow
  simp only [StorageCsv.writeRows, List.mem_map] at hrow
  obtain ⟨e, _, he⟩ := hrow
  rw [← he]
  rfl

/-- C8 witness: the row written for one concrete record is a member of the
rewrite output and carries all four header fields. -/
theorem C8_amended_witness :
    StorageCsv.rowOf "A" ⟨5, 2000, ""⟩ ∈ StorageCsv.writeRows [("A", ⟨5, 2000, ""⟩)]
    ∧ (StorageCsv.rowOf "A" ⟨5, 2000, ""⟩).map Prod.fst = StorageCsv.csvFieldnames :=
  ⟨List.mem_singleton.mpr rfl,
    C8_amended.2.2.1 [("A", ⟨5, 2000, ""⟩)] _ (List.mem_singleton.mpr rfl)⟩

/-- C2 counterexample: a second add of an already present title through
StorageJson.add_movie does not fail and replaces the stored record, so the
persisted collection differs from the one before the call: a silent
overwrite, refuting the claim for this storage variant. -/
theorem C2_counterexample :
    StorageJson.add_movie (some [("X", ⟨5, 2000, "p1"⟩)]) "X" 2001 7 "p2"
      = some [("X", ⟨7, 2001, "p2"⟩)]
    ∧ StorageJson.add_movie (some [("X", ⟨5, 2000, "p1"⟩)]) "X" 2001 7 "p2"
      ≠ some [("X", ⟨5, 2000, "p1"⟩)] :=
  ⟨rfl, by decide⟩

/-- C2 (amended): only the movies.py add path rejects a duplicate title,
through valid_movie_name, with a validation error naming the title and no
change to the collection; StorageCsv.add_movie silently ignores a
duplicate, leaving the file and hence the collection size unchanged but
raising no error; StorageJson.add_movie performs no duplicate check and
silently overwrites the stored record in place, keeping the key list and
every other record unchanged. -/
theorem C2_amended :
    (∀ (movies : MsCollection) (t : String),
      (pyStrip t).isEmpty = false → regexAccepts t = true →
      dictContains movies t = true →
      valid_movie_name movies t = .error (.alreadyExists t))
    ∧ (∀ (file : Option Collection) (t : String) (y : ℤ) (r : ℚ) (p : String),
      dictContains (StorageCsv.list_movies file) t = true →
      StorageCsv.add_movie file t y r p = file)
    ∧ ∀ (file : Option Collection) (t : String) (y : ℤ) (r : ℚ) (p : String),
      dictContains (StorageJson.list_movies file) t = true →
      StorageJson.add_movie file t y r p
        = some (dictInsert (StorageJson.list_movies file) t ⟨r, y, p⟩)
      ∧ dictGet? (dictInsert (StorageJson.list_movies file) t ⟨r, y, p⟩) t
          = some ⟨r, y, p⟩
      ∧ (∀ t', t' ≠ t →
          dictGet? (dictInsert (StorageJson.list_movies file) t ⟨r, y, p⟩) t'
            = dictGet? (StorageJson.list_movies file) t')
      ∧ dictKeys (dictInsert (StorageJson.list_movies file) t ⟨r, y, p⟩)
          = dictKeys (StorageJson.list_movies file) := by
  refine ⟨?_, ?_, ?_⟩
  · intro movies t h1 h2 h3
    simp [valid_movie_name, h1, h2, h3]
  · intro file t y r p h
    simp [StorageCsv.add_movie, h]
  · intro file t y r p h
    exact ⟨rfl, dictGet?_insert_self _ _ _,
      fun t' ht' => dictGet?_insert_ne _ _ _ _ ht',
      dictKeys_insert_of_contains _ _ _ h⟩

/-- C2 witness: the amended behaviour evaluated concretely on a duplicate
title in each variant. -/
theorem C2_amended_witness :
    ((pyStrip "X").isEmpty = false)
    ∧ (regexAccepts "X" = true)
    ∧ (dictContains [("X", (⟨2000, 5⟩ : MsMovie))] "X" = true)
    ∧ valid_movie_name [("X", (⟨2000, 5⟩ : MsMovie))] "X"
        = .error (.alreadyExists "X")
    ∧ StorageCsv.add_movie (some [("X", (⟨5, 2000, "p"⟩ : Movie))]) "X" 2001 7 "q"
        = some [("X", ⟨5, 2000, "p"⟩)]
    ∧ StorageJson.add_movie (some [("X", (⟨5, 2000, "p"⟩ : Movie))]) "X" 2001 7 "q"
        = some (dictInsert (StorageJson.list_movies (some [("X", ⟨5, 2000, "p"⟩)])) "X" ⟨7, 2001, "q"⟩) :=
  ⟨by decide, by decide, by decide,
    C2_amended.1 _ _ (by decide) (by decide) (by decide),
    C2_amended.2.1 _ _ 2001 7 "q" (by decide),
    (C2_amended.2.2 _ _ 2001 7 "q" (by decide)).1⟩

/-- C7: update isolation: when the title is present, both update variants
rewrite the collection with only that record changed to the new rating;
the year and poster of that record are preserved, every other record is
returned unchanged by lookup, and the key list of the persisted collection
is identical. -/
theorem C7_update :
    (∀ (file : Option Collection) (t : String) (r : ℚ),
      dictContains (StorageJson.list_movies file) t = true →
      StorageJson.update_movie file t r
        = some (dictModify (StorageJson.list_movies file) t
            fun m => { m with rating := r })
      ∧ (∀ m, dictGet? (StorageJson.list_movies file) t = some m →
          dictGet? (dictModify (StorageJson.list_movies file) t
              fun m0 => { m0 with rating := r }) t
            = some ⟨r, m.year, m.poster⟩)
      ∧ (∀ t', t' ≠ t →
          dictGet? (dictModify (StorageJson.list_movies file) t
              fun m0 => { m0 with rating := r }) t'
            = dictGet? (StorageJson.list_movies file) t')
      ∧ dictKeys (dictModify (StorageJson.list_movies file) t
            fun m0 => { m0 with rating := r })
          = dictKeys (StorageJson.list_movies file))
    ∧ ∀ (d : MsCollection) (t : String) (r : ℚ),
      dictContains d t = true →
      movie_storage.update_movie (some d) t r
        = .ok (some (dictModify d t fun m => { m with rating := r }))
      ∧ (∀ m, dictGet? d t = some m →
          dictGet? (dictModify d t fun m0 => { m0 with rating := r }) t
            = some ⟨m.year, r⟩)
      ∧ (∀ t', t' ≠ t →
          dictGet? (dictModify d t fun m0 => { m0 with rating := r }) t'
            = dictGet? d t')
      ∧ dictKeys (dictModify d t fun m0 => { m0 with rating := r })
          = dictKeys d := by
  constructor
  · intro file t r h
    refine ⟨by simp [StorageJson.update_movie, h], ?_, ?_, dictKeys_modify _ _ _⟩
    · intro m hm
      rw [dictGet?_modify_self, hm]
      rfl
    · intro t' ht'
      exact dictGet?_modify_ne _ _ _ _ ht'
  · intro d t r h
    refine ⟨?_, ?_, ?_, dictKeys_modify _ _ _⟩
    · simp [movie_storage.update_movie, movie_storage.get_movies,
        movie_storage.save_movies, h, Bind.bind, Except.bind]
    · intro m hm
      rw [dictGet?_modify_self, hm]
      rfl
    · intro t' ht'
      exact dictGet?_modify_ne _ _ _ _ ht'

/-- C7 witness: a concrete update of one record in a two-record collection
through the StorageJson variant, and its frame consequences. -/
theorem C7_update_witness :
    (dictContains (StorageJson.list_movies
        (some [("X", (⟨5, 2000, "p"⟩ : Movie)), ("Y", ⟨6, 2001, "q"⟩)])) "X" = true)
    ∧ StorageJson.update_movie
        (some [("X", (⟨5, 2000, "p"⟩ : Movie)), ("Y", ⟨6, 2001, "q"⟩)]) "X" 7
      = some (dictModify (StorageJson.list_movies
          (some [("X", (⟨5, 2000, "p"⟩ : Movie)), ("Y", ⟨6, 2001, "q"⟩)])) "X"
            fun m => { m with rating := 7 })
    ∧ dictGet? (dictModify (StorageJson.list_movies
          (some [("X", (⟨5, 2000, "p"⟩ : Movie)), ("Y", ⟨6, 2001, "q"⟩)])) "X"
            fun m0 => { m0 with rating := 7 }) "Y"
      = dictGet? (StorageJson.list_movies
          (some [("X", (⟨5, 2000, "p"⟩ : Movie)), ("Y", ⟨6, 2001, "q"⟩)])) "Y" :=
  ⟨by decide,
    (C7_update.1 _ "X" 7 (by decide)).1,
    (C7_update.1 _ "X" 7 (by decide)).2.2.1 "Y" (by decide)⟩

theorem app_stats_median (c : Collection) (h : c ≠ []) :
    (MovieApp._stats_movies c).map MovieApp.Stats.median
      = some ((sortRatings (MovieApp.ratingsOf c)).getD
          ((MovieApp.ratingsOf c).length / 2) 0) := by
  cases c with
  | nil => exact absurd rfl h
  | cons e es => rfl

theorem ms_stats_median_odd (d : MsCollection) (h : d.length % 2 = 1) :
    (stats_movies d).map MsStats.median
      = some ((sortRatings (msRatingsOf d)).getD (d.length / 2) 0) := by
  cases d with
  | nil => simp at h
  | cons e es =>
    simp only [List.length_cons] at h
    simp [stats_movies]
    intro hc
    exact absurd hc (by omega)

/-- C4: both stats implementations sort the ratings ascending, but
MovieApp takes the entry at index n / 2 (floor) unconditionally while the
movies.py variant branches on parity; hence they agree on every odd-count
collection and disagree on the concrete even-count collection with ratings
1 and 3, where the first returns 3 and the second the true median 2. -/
theorem C4_median :
    (∀ c : Collection, c ≠ [] →
      (MovieApp._stats_movies c).map MovieApp.Stats.median
        = some ((sortRatings (MovieApp.ratingsOf c)).getD
            ((MovieApp.ratingsOf c).length / 2) 0))
    ∧ (∀ c : Collection, c.length % 2 = 1 →
      (MovieApp._stats_movies c).map MovieApp.Stats.median
        = (stats_movies (toMs c)).map MsStats.median)
    ∧ (MovieApp._stats_movies [("A", ⟨1, 2000, ""⟩), ("B", ⟨3, 2001, ""⟩)]).map
        MovieApp.Stats.median = some 3
    ∧ (stats_movies (toMs [("A", ⟨1, 2000, ""⟩), ("B", ⟨3, 2001, ""⟩)])).map
        MsStats.median = some 2
    ∧ (3 : ℚ) ≠ 2 := by
  refine ⟨app_stats_median, ?_, by decide, ?_, by norm_num⟩
  · intro c hodd
    have hne : c ≠ [] := by
      intro hc
      subst hc
      simp at hodd
    have hlen : (MovieApp.ratingsOf c).length = c.length := by
      simp [MovieApp.ratingsOf]
    rw [app_stats_median c hne,
      ms_stats_median_odd (toMs c) (by rw [length_toMs]; exact hodd),
      msRatingsOf_toMs, length_toMs, hlen]
  · simp [stats_movies, toMs, msRatingsOf, sortRatings, insertRating]
    norm_num

/-- C4 witness: the agreement of the two medians evaluated on a concrete
odd-count collection. -/
theorem C4_median_witness :
    ([("A", (⟨5, 2000, ""⟩ : Movie))].length % 2 = 1)
    ∧ (MovieApp._stats_movies [("A", (⟨5, 2000, ""⟩ : Movie))]).map
        MovieApp.Stats.median
      = (stats_movies (toMs [("A", (⟨5, 2000, ""⟩ : Movie))])).map MsStats.median :=
  ⟨by decide, C4_median.2.1 _ (by decide)⟩

/-- C9: both filter implementations keep exactly the records whose rating
is at least the minimum and whose year lies inclusively between the
bounds, and absent bounds default to rating 0, start year 1887 and the
current calendar year; a record at the rating or year boundary is kept and
one strictly below the rating bound is dropped. -/
theorem C9_filter :
    (∀ (movies : Collection) (mr : ℚ) (sy ey cy : ℤ) (e : String × Movie),
      e ∈ MovieApp._filter_movies movies (some mr) (some sy) (some ey) cy
        ↔ e ∈ movies ∧ mr ≤ e.2.rating ∧ sy ≤ e.2.year ∧ e.2.year ≤ ey)
    ∧ (∀ (movies : Collection) (cy : ℤ),
      MovieApp._filter_movies movies none none none cy
        = MovieApp._filter_movies movies (some 0) (some 1887) (some cy) cy)
    ∧ (∀ (movies : MsCollection) (fr : ℚ) (sy ey cy : ℤ) (e : String × MsMovie),
      e ∈ filter_movies movies (some fr) (some sy) (some ey) cy
        ↔ e ∈ movies ∧ fr ≤ e.2.rating ∧ sy ≤ e.2.year ∧ e.2.year ≤ ey)
    ∧ (∀ (movies : MsCollection) (cy : ℤ),
      filter_movies movies none none none cy
        = filter_movies movies (some 0) (some 1887) (some cy) cy)
    ∧ ("A", (⟨8, 2010, ""⟩ : Movie)) ∈ MovieApp._filter_movies
        [("A", ⟨8, 2010, ""⟩), ("B", ⟨7, 2005, ""⟩)]
        (some 8) (some 2000) (some 2010) 2026
    ∧ ("B", (⟨7, 2005, ""⟩ : Movie)) ∉ MovieApp._filter_movies
        [("A", ⟨8, 2010, ""⟩), ("B", ⟨7, 2005, ""⟩)]
        (some 8) (some 2000) (some 2010) 2026 := by
  refine ⟨?_, fun movies cy => rfl, ?_, fun movies cy => rfl, by decide, by decide⟩
  · intro movies mr sy ey cy e
    simp [MovieApp._filter_movies, List.mem_filter, and_assoc]
  · intro movies fr sy ey cy e
    simp [filter_movies, List.mem_filter, and_assoc]

/-- C10: both MovieApp entry points return the no-movies signal on the
empty collection before any computation, and on a nonempty collection the
average divides by a positive rating count, the stats record exists, and
the random pick returns an element of the collection, so neither the
division nor the random choice is ever evaluated on empty input. -/
theorem C10_guard :
    MovieApp._stats_movies [] = none
    ∧ (∀ k, MovieApp._random_movie [] k = none)
    ∧ ∀ movies : Collection, movies ≠ [] →
        0 < (MovieApp.ratingsOf movies).length
        ∧ (∃ s, MovieApp._stats_movies movies = some s)
        ∧ ∀ k, ∃ e, MovieApp._random_movie movies k = some e ∧ e ∈ movies := by
  refine ⟨rfl, fun k => rfl, ?_⟩
  intro movies hne
  cases movies with
  | nil => exact absurd rfl hne
  | cons e es =>
    refine ⟨by simp [MovieApp.ratingsOf], ⟨_, rfl⟩, ?_⟩
    intro k
    have hlt : k % (e :: es).length < (e :: es).length :=
      Nat.mod_lt _ (by simp)
    refine ⟨(e :: es).getD (k % (e :: es).length) e, rfl, ?_⟩
    rw [List.getD_eq_getElem?_getD, List.getElem?_eq_getElem hlt, Option.getD_some]
    exact List.getElem_mem hlt

/-- C10 witness: the nonempty branch evaluated on a concrete one-record
collection with an arbitrary concrete random index. -/
theorem C10_guard_witness :
    ([("A", (⟨5, 2000, ""⟩ : Movie))] ≠ ([] : Collection))
    ∧ 0 < (MovieApp.ratingsOf [("A", (⟨5, 2000, ""⟩ : Movie))]).length
    ∧ (∃ s, MovieApp._stats_movies [("A", (⟨5, 2000, ""⟩ : Movie))] = some s)
    ∧ ∃ e, MovieApp._random_movie [("A", (⟨5, 2000, ""⟩ : Movie))] 5 = some e
        ∧ e ∈ [("A", (⟨5, 2000, ""⟩ : Movie))] :=
  ⟨by decide,
    (C10_guard.2.2 _ (by decide)).1,
    (C10_guard.2.2 _ (by decide)).2.1,
    (C10_guard.2.2 _ (by decide)).2.2 5⟩

/-- C6: the fuzzy fallback is consulted exactly when the substring pass
over the lowercased input finds nothing; a title enters the fallback
result exactly when at least one of its whitespace-split words scores
strictly above 70 against the search string, the word loop stopping at the
first qualifying word; and under distinct titles each qualifying title
appears exactly once in the result. -/
theorem C6_fuzzy :
    (∀ (movies : MsCollection) (input : String),
      direct_matches movies (pyLower input) ≠ [] →
      search_movies movies input = direct_matches movies (pyLower input))
    ∧ (∀ (movies : MsCollection) (input : String),
      direct_matches movies (pyLower input) = [] →
      search_movies movies input = fuzzy_search movies (pyLower input))
    ∧ (∀ (movies : MsCollection) (s : String),
      direct_matches movies s = [] ↔
        ∀ e ∈ movies, containsSub s.toList (pyLower e.1).toList = false)
    ∧ (∀ (movies : MsCollection) (s t : String),
      (∃ r, (t, r) ∈ fuzzy_search movies s) ↔
        ∃ m, (t, m) ∈ movies ∧ (pySplit t).any (word_qualifies s) = true)
    ∧ (∀ (movies : MsCollection) (s t : String),
      (dictKeys movies).Nodup → t ∈ dictKeys movies →
      first_word_match s (pySplit t) = true →
      ((fuzzy_search movies s).countP fun e => e.1 == t) = 1)
    ∧ ∀ (s : String) (ws : List String),
      first_word_match s ws = ws.any (word_qualifies s) := by
  refine ⟨?_, ?_, direct_matches_eq_nil_iff, ?_, ?_, first_word_match_eq_any⟩
  · intro movies input h
    simp only [search_movies]
    rw [if_neg h]
  · intro movies input h
    simp only [search_movies]
    rw [if_pos h]
  · intro movies s t
    constructor
    · rintro ⟨r, hr⟩
      obtain ⟨m, hm, _, hq⟩ := (mem_fuzzy_search movies s t r).mp hr
      exact ⟨m, hm, by rwa [← first_word_match_eq_any]⟩
    · rintro ⟨m, hm, hq⟩
      exact ⟨m.rating, (mem_fuzzy_search movies s t m.rating).mpr
        ⟨m, hm, rfl, by rwa [first_word_match_eq_any]⟩⟩
  · intro movies s t hnd hmem hq
    exact countP_fuzzy_search_of_match movies s t hnd hmem hq

/-- C6 witness: the once-only membership evaluated on a concrete
collection: the word Titanic scores above 70 against titanik, and the
title appears exactly once in the fallback result. -/
theorem C6_fuzzy_witness :
    (dictKeys [("Titanic", (⟨1997, 9⟩ : MsMovie)), ("Up", ⟨2009, 8⟩)]).Nodup
    ∧ "Titanic" ∈ dictKeys [("Titanic", (⟨1997, 9⟩ : MsMovie)), ("Up", ⟨2009, 8⟩)]
    ∧ first_word_match "titanik" (pySplit "Titanic") = true
    ∧ ((fuzzy_search [("Titanic", (⟨1997, 9⟩ : MsMovie)), ("Up", ⟨2009, 8⟩)]
        "titanik").countP fun e => e.1 == "Titanic") = 1 :=
  ⟨by decide, by decide,
    by
      rw [first_word_match_eq_any]
      simp only [List.any_eq_true, word_qualifies_eq_decide]
      decide,
    C6_fuzzy.2.2.2.2.1 _ "titanik" "Titanic" (by decide) (by decide)
      (by
        rw [first_word_match_eq_any]
        simp only [List.any_eq_true, word_qualifies_eq_decide]
        decide)⟩

/-- C9 witness: the boundary inclusion instantiated through the general
membership characterization at a concrete record whose rating equals the
minimum and whose year equals the end bound. -/
theorem C9_filter_witness :
    ("A", (⟨8, 2010, ""⟩ : Movie)) ∈ [("A", (⟨8, 2010, ""⟩ : Movie)), ("B", ⟨7, 2005, ""⟩)]
    ∧ (8 : ℚ) ≤ 8
    ∧ (2000 : ℤ) ≤ 2010
    ∧ (2010 : ℤ) ≤ 2010
    ∧ ("A", (⟨8, 2010, ""⟩ : Movie)) ∈ MovieApp._filter_movies
        [("A", ⟨8, 2010, ""⟩), ("B", ⟨7, 2005, ""⟩)]
        (some 8) (some 2000) (some 2010) 2026 :=
  ⟨by decide, by decide, by decide, by decide,
    (C9_filter.1 _ 8 2000 2010 2026 _).mpr
      ⟨by decide, by decide, by decide, by decide⟩⟩

end MovieProject
